import Mathlib

set_option autoImplicit false

/-!
Verification development for the invoice-parser pipeline.

The Python services are shallowly embedded as executable Lean functions:

* `app/services/llm_extractor.py` : the balanced-brace scanner
  `_extract_json_object`, the recovery routine `_parse` (backed by an
  executable model of `json.loads`), `extract_fields`.
* `app/services/validator.py` : `_normalize_date`, `_coerce`,
  `_check_totals`, `_check_negative_amounts`, `validate`, with pydantic
  construction of `InvoiceResult` modelled by `model_validate`.
* `app/services/pdf_extractor.py` : `_is_text_based` and the routing
  decision of `SmartPDFExtractor.extract`.

Python `Decimal` / numeric JSON values are modelled by `ℚ` (exact
arithmetic), `datetime.date` by `PyDate`, dictionaries by association
lists with last-binding-wins lookup.  Logging side effects are modelled
by returning the list of warnings that the code would emit.
-/

namespace InvoiceParser

/-- Model of Python `datetime.date` (a plain year-month-day triple). -/
structure PyDate where
  year : Int
  month : Nat
  day : Nat
  deriving DecidableEq, Repr

/-- Model of an arbitrary Python value as it can occur in a raw record:
JSON-shaped data (`null`, booleans, numbers, strings, lists, dicts) plus
`datetime.date` objects, which `_normalize_date` stores into the dict. -/
inductive Value where
  | null : Value
  | bool : Bool → Value
  | num : ℚ → Value
  | str : String → Value
  | arr : List Value → Value
  | obj : List (String × Value) → Value
  | pydate : PyDate → Value

/-- True exactly when the value is a dict (`isinstance(obj, dict)`). -/
def Value.isObj : Value → Bool
  | .obj _ => true
  | _ => false

/-- Schema `MonetaryAmount` from `app/api/v1/schemas.py`:
`amount : Decimal`, `currency : str | None`. -/
structure MonetaryAmount where
  amount : ℚ
  currency : Option String
  deriving DecidableEq, Repr

/-- Schema `InvoiceResult` from `app/api/v1/schemas.py`: five fields,
each optional. -/
structure InvoiceResult where
  invoiceDate : Option PyDate
  invoiceReference : Option String
  netAmount : Option MonetaryAmount
  vatAmount : Option MonetaryAmount
  totalAmount : Option MonetaryAmount
  deriving DecidableEq, Repr

/-- A raw record handed to `InvoiceValidator.validate`: a dict whose five
known keys each are either missing (`none`) or bound to an arbitrary
value.  Keys other than the five are ignored by pydantic construction
and never read by the validator, so they are not modelled. -/
structure RawRecord where
  invoiceDate : Option Value
  invoiceReference : Option Value
  netAmount : Option Value
  vatAmount : Option Value
  totalAmount : Option Value

/-- The five known keys, in field-declaration order. -/
def fiveKeysList : List String :=
  ["invoiceDate", "invoiceReference", "netAmount", "vatAmount", "totalAmount"]

/-! ## The balanced-delimiter scanner (`_extract_json_object`) -/

/-- Loop state of `_extract_json_object`: `depth`, `in_string`,
`escape_next`. -/
structure ScanState where
  depth : Int
  inString : Bool
  escapeNext : Bool
  deriving DecidableEq, Repr

/-- Model of Python `raw.find("\x7b")`: index of the first opening brace. -/
def findOpenBrace : List Char → Option Nat
  | [] => none
  | c :: cs => if c = '{' then some 0 else (findOpenBrace cs).map (· + 1)

/-- The `for i in range(start, len(raw))` loop of `_extract_json_object`,
translated branch by branch; `i` is the absolute index of the head
character, and the returned index is the absolute position of the
closing brace at which `depth` drops to zero. -/
def scanGo : List Char → ScanState → Nat → Option Nat
  | [], _, _ => none
  | c :: cs, st, i =>
    if st.escapeNext then
      scanGo cs { st with escapeNext := false } (i + 1)
    else if c = '\\' ∧ st.inString then
      scanGo cs { st with escapeNext := true } (i + 1)
    else if c = '"' then
      scanGo cs { st with inString := !st.inString } (i + 1)
    else if st.inString then
      scanGo cs st (i + 1)
    else if c = '{' then
      scanGo cs { st with depth := st.depth + 1 } (i + 1)
    else if c = '}' then
      if st.depth - 1 = 0 then some i
      else scanGo cs { st with depth := st.depth - 1 } (i + 1)
    else
      scanGo cs st (i + 1)

/-- `_extract_json_object` on the underlying character list: find the
first opening brace, run the scan from there, and slice
`raw[start : i + 1]` when the scan reports a closing index. -/
def extractJsonObjectList (raw : List Char) : Option (List Char) :=
  match findOpenBrace raw with
  | none => none
  | some start =>
    match scanGo (raw.drop start) { depth := 0, inString := false, escapeNext := false } start with
    | some i => some ((raw.take (i + 1)).drop start)
    | none => none

/-- `_extract_json_object` from `app/services/llm_extractor.py`. -/
def _extract_json_object (raw : String) : Option String :=
  (extractJsonObjectList raw.toList).map fun cs => String.mk cs

/-- One step of the scanner state machine, as described by the spec:
an escape flag consumes one character; a backslash inside a string sets
it; an unescaped quote toggles the in-string flag; characters inside a
string are inert; outside a string, braces move the nesting depth. -/
def specStep (st : ScanState) (c : Char) : ScanState :=
  if st.escapeNext then { st with escapeNext := false }
  else if c = '\\' ∧ st.inString then { st with escapeNext := true }
  else if c = '"' then { st with inString := !st.inString }
  else if st.inString then st
  else if c = '{' then { st with depth := st.depth + 1 }
  else if c = '}' then { st with depth := st.depth - 1 }
  else st

/-- A character closes the sought object when it is an unescaped closing
brace outside any quoted string and the depth before it is one. -/
def closesHere (st : ScanState) (c : Char) : Prop :=
  st.escapeNext = false ∧ st.inString = false ∧ c = '}' ∧ st.depth = 1

instance (st : ScanState) (c : Char) : Decidable (closesHere st c) := by
  unfold closesHere; infer_instance

/-- Scanner state after processing the first `k` characters of `cs`,
starting from the given state. -/
def scanStateAt (st : ScanState) (cs : List Char) (k : Nat) : ScanState :=
  (cs.take k).foldl specStep st

/-- Whether the character at position `k` of `cs` is the closing brace at
which the nesting depth returns to zero, scanning from state `st`. -/
def closesAt (st : ScanState) (cs : List Char) (k : Nat) : Prop :=
  match cs.get? k with
  | some c => closesHere (scanStateAt st cs k) c
  | none => False

instance (st : ScanState) (cs : List Char) (k : Nat) : Decidable (closesAt st cs k) := by
  unfold closesAt
  cases cs.get? k <;> simp <;> infer_instance

/-- The scanner as the spec words it: take the substring from the first
opening brace to the first position at which the quote-aware nesting
depth returns to zero; no opening brace, or no such position, means no
candidate. -/
def scannerSpec (raw : String) : Option String :=
  match raw.toList.findIdx? (fun c => c == '{') with
  | none => none
  | some start =>
    match (List.range (raw.toList.drop start).length).find?
        (fun k => decide (closesAt { depth := 0, inString := false, escapeNext := false }
          (raw.toList.drop start) k)) with
    | none => none
    | some k => some (String.mk ((raw.toList.drop start).take (k + 1)))

/-! ## Model of `json.loads`

An executable parser for the JSON grammar as implemented by Python's
`json` module in its default strict mode: the four whitespace
characters, `null` / `true` / `false`, numbers per the scanner regex
(integer part `0` or a nonzero-led digit run, optional fraction,
optional exponent; unmatched tails are left unconsumed), strings with
the standard escapes and 4-hex-digit unicode escapes, arrays and
objects.  Numbers are modelled exactly on `ℚ` (Python would round
fractional literals to binary floats; the claims never depend on that
rounding).  Non-standard inputs Python would accept (`NaN`,
`Infinity`) and surrogate-pair combining are out of scope.  Failure
(`json.JSONDecodeError`) is `none`. -/

/-- Skip JSON whitespace (space, tab, newline, carriage return). -/
def skipWs : List Char → List Char
  | [] => []
  | c :: cs => if c = ' ' ∨ c = '\t' ∨ c = '\n' ∨ c = '\r' then skipWs cs else c :: cs

/-- Longest digit prefix and the remainder. -/
def takeDigits : List Char → List Char × List Char
  | [] => ([], [])
  | c :: cs =>
    if c.isDigit then
      let p := takeDigits cs
      (c :: p.1, p.2)
    else ([], c :: cs)

/-- Numeric value of a digit run. -/
def digitsToNat (ds : List Char) : Nat :=
  ds.foldl (fun n c => 10 * n + (c.toNat - 48)) 0

/-- Value of one hexadecimal digit. -/
def hexDigitToNat (c : Char) : Option Nat :=
  if '0' ≤ c ∧ c ≤ '9' then some (c.toNat - 48)
  else if 'a' ≤ c ∧ c ≤ 'f' then some (c.toNat - 87)
  else if 'A' ≤ c ∧ c ≤ 'F' then some (c.toNat - 55)
  else none

/-- Body of a JSON string after the opening quote: returns the decoded
characters and the remainder after the closing quote.  Strict mode:
raw control characters and unknown escapes are errors. -/
def parseStringBody : List Char → Option (List Char × List Char)
  | [] => none
  | c :: cs =>
    if c = '"' then some ([], cs)
    else if c = '\\' then
      match cs with
      | [] => none
      | e :: cs2 =>
        if e = '"' ∨ e = '\\' ∨ e = '/' then
          (parseStringBody cs2).map fun p => (e :: p.1, p.2)
        else if e = 'b' then (parseStringBody cs2).map fun p => (Char.ofNat 8 :: p.1, p.2)
        else if e = 'f' then (parseStringBody cs2).map fun p => (Char.ofNat 12 :: p.1, p.2)
        else if e = 'n' then (parseStringBody cs2).map fun p => ('\n' :: p.1, p.2)
        else if e = 'r' then (parseStringBody cs2).map fun p => ('\r' :: p.1, p.2)
        else if e = 't' then (parseStringBody cs2).map fun p => ('\t' :: p.1, p.2)
        else if e = 'u' then
          match cs2 with
          | h1 :: h2 :: h3 :: h4 :: cs3 =>
            match hexDigitToNat h1, hexDigitToNat h2, hexDigitToNat h3, hexDigitToNat h4 with
            | some a, some b, some c2, some d =>
              (parseStringBody cs3).map fun p =>
                (Char.ofNat (4096 * a + 256 * b + 16 * c2 + d) :: p.1, p.2)
            | _, _, _, _ => none
          | _ => none
        else none
    else if c.toNat < 32 then none
    else (parseStringBody cs).map fun p => (c :: p.1, p.2)

/-- Match an exact run of characters, returning the remainder. -/
def stripLiteral : List Char → List Char → Option (List Char)
  | [], cs => some cs
  | l :: ls, c :: cs => if c = l then stripLiteral ls cs else none
  | _ :: _, [] => none

/-- A JSON number per the Python scanner regex: optional minus, integer
part (`0` alone, or a run led by a nonzero digit), optional fraction
(consumed only when the dot is followed by a digit), optional exponent
(consumed only when digits follow); anything else stays in the
remainder. -/
def parseJsonNumber (cs : List Char) : Option (ℚ × List Char) :=
  let sp : Bool × List Char :=
    match cs with
    | '-' :: r => (true, r)
    | _ => (false, cs)
  let neg := sp.1
  let cs1 := sp.2
  match cs1 with
  | [] => none
  | c :: _ =>
    if c.isDigit then
      let ipp : List Char × List Char :=
        match cs1 with
        | '0' :: r => (['0'], r)
        | _ => takeDigits cs1
      let ip := ipp.1
      let cs2 := ipp.2
      let frp : List Char × List Char :=
        match cs2 with
        | '.' :: r =>
          let p := takeDigits r
          if p.1 = [] then ([], cs2) else (p.1, p.2)
        | _ => ([], cs2)
      let fp := frp.1
      let cs3 := frp.2
      let exp : Option (Int × List Char) :=
        match cs3 with
        | e :: r =>
          if e = 'e' ∨ e = 'E' then
            let sr : Int × List Char :=
              match r with
              | '+' :: r2 => (1, r2)
              | '-' :: r2 => (-1, r2)
              | _ => (1, r)
            let p := takeDigits sr.2
            if p.1 = [] then none else some (sr.1 * (digitsToNat p.1 : Int), p.2)
          else none
        | [] => none
      let mant : ℚ := (digitsToNat ip : ℚ) + (digitsToNat fp : ℚ) / ((10 : ℚ) ^ fp.length)
      let signed : ℚ := if neg then -mant else mant
      match exp with
      | some (e, r) => some (signed * (10 : ℚ) ^ e, r)
      | none => some (signed, cs3)
    else none

mutual

/-- One JSON value, fuel-bounded (the fuel passed at top level always
suffices); returns the value and the unconsumed remainder. -/
def parseValueFuel : Nat → List Char → Option (Value × List Char)
  | 0, _ => none
  | fuel + 1, cs =>
    match skipWs cs with
    | [] => none
    | c :: rest =>
      if c = '{' then
        (parseObjectFuel fuel rest).map fun p => (Value.obj p.1, p.2)
      else if c = '[' then
        (parseArrayFuel fuel rest).map fun p => (Value.arr p.1, p.2)
      else if c = '"' then
        (parseStringBody rest).map fun p => (Value.str (String.mk p.1), p.2)
      else if c = 't' then
        (stripLiteral ['r', 'u', 'e'] rest).map fun r => (Value.bool true, r)
      else if c = 'f' then
        (stripLiteral ['a', 'l', 's', 'e'] rest).map fun r => (Value.bool false, r)
      else if c = 'n' then
        (stripLiteral ['u', 'l', 'l'] rest).map fun r => (Value.null, r)
      else
        (parseJsonNumber (c :: rest)).map fun p => (Value.num p.1, p.2)

/-- Object body after the opening brace. -/
def parseObjectFuel : Nat → List Char → Option (List (String × Value) × List Char)
  | 0, _ => none
  | fuel + 1, cs =>
    match skipWs cs with
    | '}' :: rest => some ([], rest)
    | cs1 => parseMembersFuel fuel cs1

/-- One or more `"key": value` members, separated by commas, up to the
closing brace. -/
def parseMembersFuel : Nat → List Char → Option (List (String × Value) × List Char)
  | 0, _ => none
  | fuel + 1, cs =>
    match skipWs cs with
    | '"' :: rest =>
      match parseStringBody rest with
      | none => none
      | some (key, r1) =>
        match skipWs r1 with
        | ':' :: r2 =>
          match parseValueFuel fuel r2 with
          | none => none
          | some (v, r3) =>
            match skipWs r3 with
            | ',' :: r4 =>
              (parseMembersFuel fuel r4).map fun p => ((String.mk key, v) :: p.1, p.2)
            | '}' :: r4 => some ([(String.mk key, v)], r4)
            | _ => none
        | _ => none
    | _ => none

/-- Array body after the opening bracket. -/
def parseArrayFuel : Nat → List Char → Option (List Value × List Char)
  | 0, _ => none
  | fuel + 1, cs =>
    match skipWs cs with
    | ']' :: rest => some ([], rest)
    | cs1 => parseItemsFuel fuel cs1

/-- One or more array items, separated by commas, up to the closing
bracket. -/
def parseItemsFuel : Nat → List Char → Option (List Value × List Char)
  | 0, _ => none
  | fuel + 1, cs =>
    match parseValueFuel fuel cs with
    | none => none
    | some (v, r1) =>
      match skipWs r1 with
      | ',' :: r2 => (parseItemsFuel fuel r2).map fun p => (v :: p.1, p.2)
      | ']' :: r2 => some ([v], r2)
      | _ => none

end

/-- `json.loads`: parse one value and require only whitespace after it
(anything else raises `JSONDecodeError`, modelled as `none`). -/
def json_loads (s : String) : Option Value :=
  let cs := s.toList
  match parseValueFuel (2 * cs.length + 4) cs with
  | some (v, rest) => if skipWs rest = [] then some v else none
  | none => none

/-- Python dict lookup `d[k]` on an association list built by the JSON
parser: the last binding of a duplicated key wins, as in a Python dict
literal. -/
def objGet (kvs : List (String × Value)) (k : String) : Option Value :=
  (kvs.reverse.find? fun p => p.1 == k).map Prod.snd

/-- Python `d.get(k)`: `None` when the key is missing. -/
def dictGet (kvs : List (String × Value)) (k : String) : Value :=
  (objGet kvs k).getD Value.null

/-! ## The field-recovery extractor (`app/services/llm_extractor.py`) -/

/-- The `InvoiceFields` TypedDict: a dict with exactly the five known
keys, each bound to an arbitrary untyped value (`Value.null` models
Python `None`). -/
structure InvoiceFields where
  invoiceDate : Value
  invoiceReference : Value
  netAmount : Value
  vatAmount : Value
  totalAmount : Value

/-- The all-absent record that `_parse` starts from and all failure
paths return. -/
def allNullFields : InvoiceFields :=
  { invoiceDate := Value.null, invoiceReference := Value.null, netAmount := Value.null,
    vatAmount := Value.null, totalAmount := Value.null }

/-- The `InvoiceFields` dict as key-value pairs, in the order the source
builds it. -/
def fieldsToDict (f : InvoiceFields) : List (String × Value) :=
  [("invoiceDate", f.invoiceDate), ("invoiceReference", f.invoiceReference),
   ("netAmount", f.netAmount), ("vatAmount", f.vatAmount), ("totalAmount", f.totalAmount)]

/-- The candidate-object computation inside `LLMExtractor._parse`: try
`json.loads` on the whole text and keep it only if it is a dict (a
successful non-dict parse raises nothing, so the scanner is not
consulted); on a decode error, run `_extract_json_object` and parse its
result, again keeping only a dict.  (`if extracted:` is true exactly
when the scanner returned a string, which always starts with a brace
and hence is never empty.) -/
def candidateObject (raw : String) : Option (List (String × Value)) :=
  match json_loads raw with
  | some (Value.obj kvs) => some kvs
  | some _ => none
  | none =>
    match _extract_json_object raw with
    | none => none
    | some extracted =>
      match json_loads extracted with
      | some (Value.obj kvs) => some kvs
      | _ => none

/-- `LLMExtractor._parse`: read the five known keys from the candidate
object with `dict.get` (missing keys default to `None`), or return the
all-absent record when no candidate object was established. -/
def _parse (raw : String) : InvoiceFields :=
  match candidateObject raw with
  | some kvs =>
    { invoiceDate := dictGet kvs "invoiceDate",
      invoiceReference := dictGet kvs "invoiceReference",
      netAmount := dictGet kvs "netAmount",
      vatAmount := dictGet kvs "vatAmount",
      totalAmount := dictGet kvs "totalAmount" }
  | none => allNullFields

/-- One chat message of the model response (`content` may be absent). -/
structure ChatMessage where
  content : Option String

/-- One completion choice. -/
structure ChatChoice where
  message : ChatMessage

/-- The model response consumed by `extract_fields`: its list of
completion choices.  The model call itself is an external collaborator;
its response is the function's input here. -/
structure ChatResponse where
  choices : List ChatChoice

/-- Python `str(content or "")` for `content : str | None`. -/
def pyOrEmptyStr : Option String → String
  | none => ""
  | some s => s

/-- `LLMExtractor.extract_fields`, as a function of the model response:
an empty choice list yields the all-absent record; otherwise the first
choice's content (empty when absent) is handed to `_parse`. -/
def extract_fields (response : ChatResponse) : InvoiceFields :=
  match response.choices with
  | [] => allNullFields
  | choice :: _ => _parse (pyOrEmptyStr choice.message.content)

/-! ## Routing (`app/services/pdf_extractor.py`) -/

/-- Default threshold `_MIN_TEXT_CHARS_PER_PAGE`. -/
def _MIN_TEXT_CHARS_PER_PAGE : Nat := 50

/-- Which acquisition strategy `SmartPDFExtractor.extract` used. -/
inductive ExtractionPath where
  | text : ExtractionPath
  | ocr : ExtractionPath
  deriving DecidableEq, Repr

/-- `_is_text_based`: average characters per page at least the threshold;
a zero page count is never text-based.  Python true division is modelled
by exact division on `ℚ`. -/
def _is_text_based (t : String) (page_count : Nat) (min_chars_per_page : Nat) : Bool :=
  if page_count > 0 then
    decide ((min_chars_per_page : ℚ) ≤ (t.length : ℚ) / (page_count : ℚ))
  else false

/-- The routing decision of `SmartPDFExtractor.extract`, as a function of
the embedded-text pass output (text and page count): the text path when
`_is_text_based` holds, the OCR path otherwise. -/
def smartExtractPath (t : String) (page_count : Nat) (min_chars : Nat) : ExtractionPath :=
  if _is_text_based t page_count min_chars then ExtractionPath.text else ExtractionPath.ocr

/-! ## The validator (`app/services/validator.py`)

Pydantic construction `InvoiceResult.model_validate(data)` is embedded
as an explicitly fallible function: each field is coerced independently
(lax mode), and on failure the raised `ValidationError` is modelled by
the list of top-level field names appearing as `error["loc"][0]` —
which is all `_coerce` reads from it.  Multiple sub-errors inside one
amount field share that top-level name; the model reports each failing
field once, in field-declaration order. -/

/-- Leap-year rule used by `datetime.date`. -/
def isLeapYear (y : Int) : Bool :=
  (y % 4 == 0 && y % 100 != 0) || (y % 400 == 0)

/-- Day count of a month, as `datetime.date` validates it. -/
def daysInMonth (y : Int) (m : Nat) : Nat :=
  if m = 2 then (if isLeapYear y then 29 else 28)
  else if m = 4 ∨ m = 6 ∨ m = 9 ∨ m = 11 then 30
  else 31

/-- Model of `datetime.date.fromisoformat` on the strict calendar-date
form `YYYY-MM-DD` (the documented format; year 0001-9999, month and day
range-checked), `none` for the raised `ValueError`.  The same parser
models pydantic's exact-date string coercion, which accepts the same
strict form. -/
def date_fromisoformat (s : String) : Option PyDate :=
  match s.toList with
  | [y1, y2, y3, y4, h1, m1, m2, h2, d1, d2] =>
    if y1.isDigit ∧ y2.isDigit ∧ y3.isDigit ∧ y4.isDigit ∧ h1 = '-' ∧
        m1.isDigit ∧ m2.isDigit ∧ h2 = '-' ∧ d1.isDigit ∧ d2.isDigit then
      let y : Nat := digitsToNat [y1, y2, y3, y4]
      let m : Nat := digitsToNat [m1, m2]
      let d : Nat := digitsToNat [d1, d2]
      if 1 ≤ y ∧ 1 ≤ m ∧ m ≤ 12 ∧ 1 ≤ d ∧ d ≤ daysInMonth (y : Int) m then
        some { year := (y : Int), month := m, day := d }
      else none
    else none
  | _ => none

/-- Whole-word, case-insensitive occurrence check used to model one
regex pattern of `_MONTH_PATTERNS`: does `pat` (lowercase) occur in
`cs` at a position with non-word characters on both sides?  Word
characters follow the regex `\w` class restricted to ASCII as the
lexicon needs. -/
def isWordChar (c : Char) : Bool :=
  c.isAlphanum || c = '_'

/-- Case-insensitive match of `pat` against a prefix of `cs`, returning
the remainder. -/
def matchLowerPrefix : List Char → List Char → Option (List Char)
  | [], cs => some cs
  | p :: ps, c :: cs => if c.toLower = p then matchLowerPrefix ps cs else none
  | _ :: _, [] => none

/-- One `pattern.sub(english, s)` pass: replace every non-overlapping,
whole-word, case-insensitive occurrence of `pat` (given lowercase, as
in the lexicon) by `rep`, scanning left to right over the original
characters.  `prev` is the original character just before the current
position (`none` at the start; after a replaced match it is the match's
last character, always a letter, represented by `some 'x'`).  The fuel
starts at the text length, which bounds the number of scan steps for
the nonempty patterns of the lexicon. -/
def substWordFuel (pat : List Char) (rep : List Char) :
    Nat → Option Char → List Char → List Char
  | 0, _, cs => cs
  | _ + 1, _, [] => []
  | fuel + 1, prev, c :: cs =>
    let boundaryBefore := match prev with
      | none => true
      | some p => !isWordChar p
    if boundaryBefore then
      match matchLowerPrefix pat (c :: cs) with
      | some rest =>
        let boundaryAfter := match rest with
          | [] => true
          | r :: _ => !isWordChar r
        if boundaryAfter then rep ++ substWordFuel pat rep fuel (some 'x') rest
        else c :: substWordFuel pat rep fuel (some c) cs
      | none => c :: substWordFuel pat rep fuel (some c) cs
    else c :: substWordFuel pat rep fuel (some c) cs

/-- Whole-word case-insensitive substitution over a character list. -/
def substWord (pat : List Char) (rep : List Char) (cs : List Char) : List Char :=
  substWordFuel pat rep cs.length none cs

/-- The `_EUROPEAN_MONTHS` lexicon, in source order. -/
def _EUROPEAN_MONTHS : List (String × String) :=
  [("januar", "January"), ("februar", "February"), ("märz", "March"), ("mär", "March"),
   ("mai", "May"), ("juni", "June"), ("juli", "July"), ("oktober", "October"),
   ("dezember", "December"),
   ("mars", "March"), ("desember", "December"),
   ("januari", "January"), ("februari", "February"), ("maart", "March"), ("mei", "May"),
   ("december", "December"),
   ("janvier", "January"), ("février", "February"), ("avril", "April"), ("juin", "June"),
   ("juillet", "July"), ("août", "August"), ("octobre", "October"), ("novembre", "November"),
   ("décembre", "December"),
   ("gennaio", "January"), ("febbraio", "February"), ("marzo", "March"), ("aprile", "April"),
   ("maggio", "May"), ("giugno", "June"), ("luglio", "July"), ("settembre", "September"),
   ("ottobre", "October"), ("dicembre", "December"),
   ("enero", "January"), ("febrero", "February"), ("junio", "June"), ("julio", "July"),
   ("agosto", "August"), ("septiembre", "September"), ("octubre", "October"),
   ("noviembre", "November"), ("diciembre", "December")]

/-- `_normalize_european_months`: apply every lexicon substitution in
order. -/
def _normalize_european_months (s : String) : String :=
  _EUROPEAN_MONTHS.foldl
    (fun acc p => String.mk (substWord p.1.toList p.2.toList acc.toList)) s

/-- `InvoiceValidator._normalize_date`, parameterized by the lenient
day-first parser `dateutil.parser.parse(s, dayfirst=True).date()`
(an external library; `none` models its `ValueError` / `OverflowError`).
A missing key or `None` or an existing `date` object passes through; a
non-string becomes `None`; a string accepted by `fromisoformat` is kept
verbatim; otherwise the month-substituted string is parsed leniently,
with failure becoming `None`. -/
def _normalize_date (dateutilParse : String → Option PyDate) (data : RawRecord) : RawRecord :=
  match data.invoiceDate with
  | none => data
  | some Value.null => data
  | some (Value.pydate _) => data
  | some (Value.str s) =>
    if (date_fromisoformat s).isSome then data
    else
      match dateutilParse (_normalize_european_months s) with
      | some d => { data with invoiceDate := some (Value.pydate d) }
      | none => { data with invoiceDate := some Value.null }
  | some _ => { data with invoiceDate := some Value.null }

/-- Pydantic lax coercion into `date | None`.  A required key that is
missing is a field error; `None` passes; `date` objects pass; strings
are parsed as exact calendar dates.  (Numbers as unix timestamps are
not modelled: `_normalize_date` has already replaced every non-string,
non-date value by `None` on the only path into construction.) -/
def coerceDate : Option Value → Except Unit (Option PyDate)
  | none => .error ()
  | some Value.null => .ok none
  | some (Value.pydate d) => .ok (some d)
  | some (Value.str s) =>
    match date_fromisoformat s with
    | some d => .ok (some d)
    | none => .error ()
  | some _ => .error ()

/-- Pydantic lax coercion into `str | None`: strings and `None` pass,
everything else (numbers, booleans, lists, dicts, dates) is a field
error. -/
def coerceRef : Option Value → Except Unit (Option String)
  | none => .error ()
  | some Value.null => .ok none
  | some (Value.str s) => .ok (some s)
  | some _ => .error ()

/-- Grammar of `decimal.Decimal(str)` on plain finite numerals, which is
what pydantic uses to coerce a string into a `Decimal` field: optional
sign, digits with an optional dot (at least one digit overall), an
optional exponent.  Non-finite spellings are rejected by pydantic. -/
def parseDecimalString (s : String) : Option ℚ :=
  let cs := s.toList
  let sp : Bool × List Char :=
    match cs with
    | '-' :: r => (true, r)
    | '+' :: r => (false, r)
    | _ => (false, cs)
  let ipp := takeDigits sp.2
  let frp : List Char × List Char :=
    match ipp.2 with
    | '.' :: r => takeDigits r
    | _ => ([], ipp.2)
  if ipp.1 = [] ∧ frp.1 = [] then none
  else
    let exp : Option (Int × List Char) :=
      match frp.2 with
      | e :: r =>
        if e = 'e' ∨ e = 'E' then
          let sr : Int × List Char :=
            match r with
            | '+' :: r2 => (1, r2)
            | '-' :: r2 => (-1, r2)
            | _ => (1, r)
          let p := takeDigits sr.2
          if p.1 = [] then none else some (sr.1 * (digitsToNat p.1 : Int), p.2)
        else none
      | [] => none
    let rest : List Char := match exp with
      | some (_, r) => r
      | none => frp.2
    if rest = [] then
      let mant : ℚ :=
        (digitsToNat ipp.1 : ℚ) + (digitsToNat frp.1 : ℚ) / ((10 : ℚ) ^ frp.1.length)
      let e : Int := match exp with
        | some (x, _) => x
        | none => 0
      some ((if sp.1 then -mant else mant) * (10 : ℚ) ^ e)
    else none

/-- Pydantic lax coercion of one value into a `Decimal`: exact numbers
pass (ints and floats; floats enter via their shortest decimal
spelling, here already exact on `ℚ`), numeric strings are parsed,
booleans and every other shape are field errors. -/
def coerceDecimal : Value → Except Unit ℚ
  | Value.num q => .ok q
  | Value.str s =>
    match parseDecimalString s with
    | some q => .ok q
    | none => .error ()
  | _ => .error ()

/-- Pydantic lax coercion of one value into `str | None` for the
`currency` sub-field. -/
def coerceCurrency : Value → Except Unit (Option String)
  | Value.null => .ok none
  | Value.str s => .ok (some s)
  | _ => .error ()

/-- Pydantic lax coercion into `MonetaryAmount | None`: `None` passes, a
dict must supply both required sub-fields (`amount`, `currency`) with
coercible values — any sub-error surfaces with the amount field's name
as `loc[0]` — and every non-dict value is a field error. -/
def coerceAmountField : Option Value → Except Unit (Option MonetaryAmount)
  | none => .error ()
  | some Value.null => .ok none
  | some (Value.obj kvs) =>
    match objGet kvs "amount", objGet kvs "currency" with
    | some av, some cv =>
      match coerceDecimal av, coerceCurrency cv with
      | .ok a, .ok c => .ok (some { amount := a, currency := c })
      | _, _ => .error ()
    | _, _ => .error ()
  | some _ => .error ()

/-- Whether a field coercion failed. -/
def failed {α : Type} : Except Unit α → Bool
  | .error _ => true
  | .ok _ => false

/-- `InvoiceResult.model_validate(data)`: construct the result when all
five coercions succeed, otherwise raise a `ValidationError` carrying
the names of the failing top-level fields (in declaration order). -/
def model_validate (data : RawRecord) : Except (List String) InvoiceResult :=
  match coerceDate data.invoiceDate, coerceRef data.invoiceReference,
      coerceAmountField data.netAmount, coerceAmountField data.vatAmount,
      coerceAmountField data.totalAmount with
  | .ok d, .ok r, .ok n, .ok v, .ok t =>
    .ok { invoiceDate := d, invoiceReference := r, netAmount := n, vatAmount := v,
          totalAmount := t }
  | rd, rr, rn, rv, rt =>
    .error ((if failed rd then ["invoiceDate"] else []) ++
      (if failed rr then ["invoiceReference"] else []) ++
      (if failed rn then ["netAmount"] else []) ++
      (if failed rv then ["vatAmount"] else []) ++
      (if failed rt then ["totalAmount"] else []))

/-- `cleaned[str(error["loc"][0])] = None` for one reported location:
binding one of the five keys to `None`.  Any other key would only add
an extra dict entry that construction ignores, a no-op in this model. -/
def setFieldNull (d : RawRecord) (k : String) : RawRecord :=
  if k = "invoiceDate" then { d with invoiceDate := some Value.null }
  else if k = "invoiceReference" then { d with invoiceReference := some Value.null }
  else if k = "netAmount" then { d with netAmount := some Value.null }
  else if k = "vatAmount" then { d with vatAmount := some Value.null }
  else if k = "totalAmount" then { d with totalAmount := some Value.null }
  else d

/-- The `for error in exc.errors()` loop of `_coerce`: null out every
reported offending top-level field. -/
def applyNulls (data : RawRecord) (errs : List String) : RawRecord :=
  errs.foldl setFieldNull data

/-- The empty fallback result constructed by the final safety net of
`_coerce`. -/
def emptyResult : InvoiceResult :=
  { invoiceDate := none, invoiceReference := none, netAmount := none, vatAmount := none,
    totalAmount := none }

/-- `InvoiceValidator._coerce`: construct; on a `ValidationError`, null
the offending fields and retry; on a second failure, return the
all-absent result. -/
def _coerce (data : RawRecord) : InvoiceResult :=
  match model_validate data with
  | .ok r => r
  | .error errs =>
    match model_validate (applyNulls data errs) with
    | .ok r => r
    | .error _ => emptyResult

/-- A warning emitted through `logger.warning`, with the values the
source interpolates into the message. -/
inductive Warning where
  | currencyMismatch (net vat total : Option String) : Warning
  | totalsInconsistency (net vat total : ℚ) : Warning
  | negativeAmount (field : String) (amount : ℚ) : Warning
  deriving DecidableEq, Repr

/-- `InvoiceValidator._check_totals`, returning the warnings it logs:
nothing unless all three amounts are present; a currency-mismatch
warning (and nothing else) when the three currency codes do not form a
single-element set; otherwise a totals-inconsistency warning exactly
when the total is nonzero and the relative error of `net + vat`
against `total` exceeds `Decimal("0.01")`. -/
def _check_totals (result : InvoiceResult) : List Warning :=
  match result.netAmount, result.vatAmount, result.totalAmount with
  | some n, some v, some t =>
    if ([n.currency, v.currency, t.currency] : List (Option String)).dedup.length > 1 then
      [Warning.currencyMismatch n.currency v.currency t.currency]
    else if t.amount ≠ 0 ∧ |n.amount + v.amount - t.amount| / |t.amount| > (1 : ℚ) / 100 then
      [Warning.totalsInconsistency n.amount v.amount t.amount]
    else []
  | _, _, _ => []

/-- `InvoiceValidator._check_negative_amounts`, returning the warnings
it logs: one per present amount field with a negative amount, in field
order. -/
def _check_negative_amounts (result : InvoiceResult) : List Warning :=
  [("netAmount", result.netAmount), ("vatAmount", result.vatAmount),
   ("totalAmount", result.totalAmount)].foldr
    (fun p acc =>
      match p.2 with
      | some m => if m.amount < 0 then Warning.negativeAmount p.1 m.amount :: acc else acc
      | none => acc) []

/-- `InvoiceValidator.validate`: normalize the date, coerce, run the two
log-only checks, return the result (paired here with the warnings the
checks would log). -/
def validate (dateutilParse : String → Option PyDate) (raw : RawRecord) :
    InvoiceResult × List Warning :=
  let processed := _normalize_date dateutilParse raw
  let result := _coerce processed
  (result, _check_totals result ++ _check_negative_amounts result)

/-- Serialization of an optional date field (python-mode `model_dump`). -/
def dumpDate : Option PyDate → Value
  | none => Value.null
  | some d => Value.pydate d

/-- Serialization of an optional string field. -/
def dumpStrOpt : Option String → Value
  | none => Value.null
  | some s => Value.str s

/-- Serialization of an optional `MonetaryAmount` field: a dict with the
two sub-keys. -/
def dumpAmount : Option MonetaryAmount → Value
  | none => Value.null
  | some m => Value.obj [("amount", Value.num m.amount), ("currency", dumpStrOpt m.currency)]

/-- Python-mode `model_dump` of an `InvoiceResult`: a dict that always
carries exactly the five keys. -/
def model_dump (r : InvoiceResult) : List (String × Value) :=
  [("invoiceDate", dumpDate r.invoiceDate),
   ("invoiceReference", dumpStrOpt r.invoiceReference),
   ("netAmount", dumpAmount r.netAmount),
   ("vatAmount", dumpAmount r.vatAmount),
   ("totalAmount", dumpAmount r.totalAmount)]

/-- An `InvoiceResult` converted back to raw-record form (all five keys
present, values dumped). -/
def toRaw (r : InvoiceResult) : RawRecord :=
  { invoiceDate := some (dumpDate r.invoiceDate),
    invoiceReference := some (dumpStrOpt r.invoiceReference),
    netAmount := some (dumpAmount r.netAmount),
    vatAmount := some (dumpAmount r.vatAmount),
    totalAmount := some (dumpAmount r.totalAmount) }

/-- Field lookup on a raw record by key name (the five known keys). -/
def getField (d : RawRecord) : String → Option Value
  | "invoiceDate" => d.invoiceDate
  | "invoiceReference" => d.invoiceReference
  | "netAmount" => d.netAmount
  | "vatAmount" => d.vatAmount
  | "totalAmount" => d.totalAmount
  | _ => none

/-- Relative position of the first character at which the scan, started
in state `st`, reports closure (bridge between the loop `scanGo` and
the declarative `scannerSpec`). -/
def firstClose : List Char → ScanState → Option Nat
  | [], _ => none
  | c :: cs, st =>
    if closesHere st c then some 0
    else (firstClose cs (specStep st c)).map (· + 1)

/-- Concrete raw record whose `invoiceReference` slot holds a number:
pydantic rejects numbers for `str | None`, so first construction fails
on exactly that field. -/
def c5data : RawRecord :=
  { invoiceDate := some Value.null, invoiceReference := some (Value.num 5),
    netAmount := some Value.null, vatAmount := some Value.null,
    totalAmount := some Value.null }

/-- Concrete result with `net=100 NOK`, `vat=25 NOK`, `total=200 NOK`
(the totals-inconsistency example of the spec). -/
def c6result : InvoiceResult :=
  { invoiceDate := none, invoiceReference := none,
    netAmount := some { amount := 100, currency := some "NOK" },
    vatAmount := some { amount := 25, currency := some "NOK" },
    totalAmount := some { amount := 200, currency := some "NOK" } }

/-- Concrete raw record whose date slot holds the strict ISO string
`2024-01-15`. -/
def c8data : RawRecord :=
  { invoiceDate := some (Value.str "2024-01-15"), invoiceReference := some Value.null,
    netAmount := some Value.null, vatAmount := some Value.null,
    totalAmount := some Value.null }

/-! ## Theorems -/

theorem option_map_shift (o : Option Nat) (i : Nat) :
    (o.map (· + 1)).map (i + ·) = o.map ((i + 1) + ·) := by
  cases o with
  | none => rfl
  | some k =>
    simp only [Option.map_some']
    congr 1
    omega

/-- C1: for every raw record — arbitrary values in every slot, hence in
particular wrong-typed amount fields or an integer date — `validate`
returns a result (the embedding is a total function: its only fallible
operation, `model_validate`, is fully handled inside `_coerce`, so no
exception escapes), and that result serializes with exactly the five
known keys. -/
theorem c1_validate_total_with_five_keys
    (dateutilParse : String → Option PyDate) (raw : RawRecord) :
    ∃ res : InvoiceResult, (validate dateutilParse raw).1 = res ∧
      (model_dump res).map Prod.fst = fiveKeysList :=
  ⟨(validate dateutilParse raw).1, rfl, rfl⟩

/-- C2: `extract_fields` always returns a record with exactly the five
keys, and returns the all-absent record when the response has no
completion choices, when the first choice's content is empty or
absent, and when no candidate object can be recovered from the
response text. -/
theorem c2_extract_fields_absorbs_failures (response : ChatResponse) :
    (fieldsToDict (extract_fields response)).map Prod.fst = fiveKeysList ∧
    (response.choices = [] → extract_fields response = allNullFields) ∧
    ∀ choice rest, response.choices = choice :: rest →
      ((choice.message.content = none ∨ choice.message.content = some "") →
        extract_fields response = allNullFields) ∧
      (candidateObject (pyOrEmptyStr choice.message.content) = none →
        extract_fields response = allNullFields) := by
  refine ⟨rfl, ?_, ?_⟩
  · intro h
    simp [extract_fields, h]
  · intro choice rest h
    constructor
    · intro hc
      have he : pyOrEmptyStr choice.message.content = "" := by
        rcases hc with h1 | h1 <;> simp [h1, pyOrEmptyStr]
      simp only [extract_fields, h, he]
      rfl
    · intro hc
      simp [extract_fields, h, _parse, hc]

/-- Witness for C2 at a response with no completion choices. -/
theorem c2_witness : extract_fields { choices := [] } = allNullFields :=
  (c2_extract_fields_absorbs_failures { choices := [] }).2.1 rfl

/-- C4: the router picks the text strategy exactly when the page count
is positive and the average characters per page reach the threshold;
with a zero page count the OCR strategy is always chosen; the default
threshold is 50. -/
theorem c4_router_text_iff_chars_per_page (t : String) (page_count min_chars : Nat) :
    (smartExtractPath t page_count min_chars = ExtractionPath.text ↔
      0 < page_count ∧ (min_chars : ℚ) ≤ (t.length : ℚ) / (page_count : ℚ)) ∧
    (page_count = 0 → smartExtractPath t page_count min_chars = ExtractionPath.ocr) ∧
    _MIN_TEXT_CHARS_PER_PAGE = 50 := by
  refine ⟨?_, ?_, rfl⟩
  · by_cases hp : 0 < page_count
    · simp only [smartExtractPath, _is_text_based, hp, if_true, gt_iff_lt]
      split_ifs with hq
      · simpa [hp] using hq
      · simp only [decide_eq_true_eq] at hq
        constructor
        · intro he
          cases he
        · intro hand
          exact absurd hand.2 hq
    · simp [smartExtractPath, _is_text_based, hp]
  · intro h
    simp [smartExtractPath, _is_text_based, h]

/-- Witness for C4: zero pages routes to OCR despite nonempty text. -/
theorem c4_witness : smartExtractPath "xxxxx" 0 50 = ExtractionPath.ocr :=
  (c4_router_text_iff_chars_per_page "xxxxx" 0 50).2.1 rfl

/-- C7: the cross-field consistency checks never alter the result —
`validate` returns exactly what the coercion step produced on the
date-normalized record. -/
theorem c7_checks_preserve_result (dateutilParse : String → Option PyDate)
    (raw : RawRecord) :
    (validate dateutilParse raw).1 = _coerce (_normalize_date dateutilParse raw) := rfl

/-- C10: when the whole response text parses as JSON but not as an
object, no candidate is kept (and the scanner path, which only runs on
a decode error, is never consulted): the result is all-absent even if
an object substring is embedded in the text. -/
theorem c10_nonobject_full_parse_yields_all_null (raw : String) (v : Value)
    (h1 : json_loads raw = some v) (h2 : v.isObj = false) :
    _parse raw = allNullFields := by
  have hc : candidateObject raw = none := by
    unfold candidateObject
    rw [h1]
    cases v <;> simp_all [Value.isObj]
  simp [_parse, hc]

/-- Witness for C10: `[\x7b\x7d]` parses as a JSON array, the scanner
would have found the embedded object `\x7b\x7d`, yet the extractor
returns the all-absent record. -/
theorem c10_witness :
    json_loads "[\x7b\x7d]" = some (Value.arr [Value.obj []]) ∧
    _extract_json_object "[\x7b\x7d]" = some "\x7b\x7d" ∧
    _parse "[\x7b\x7d]" = allNullFields :=
  ⟨rfl, rfl,
    c10_nonobject_full_parse_yields_all_null "[\x7b\x7d]" (Value.arr [Value.obj []]) rfl rfl⟩

theorem getField_setFieldNull (d : RawRecord) (e k : String) (hk : k ∈ fiveKeysList) :
    getField (setFieldNull d e) k = if e = k then some Value.null else getField d k := by
  simp only [fiveKeysList, List.mem_cons, List.not_mem_nil, or_false] at hk
  rcases hk with rfl | rfl | rfl | rfl | rfl <;>
    (unfold setFieldNull; split_ifs <;> simp_all [getField])

theorem getField_applyNulls (errs : List String) (data : RawRecord) (k : String)
    (hk : k ∈ fiveKeysList) :
    getField (applyNulls data errs) k =
      if k ∈ errs then some Value.null else getField data k := by
  induction errs generalizing data with
  | nil => simp [applyNulls]
  | cons e es ih =>
    have step : applyNulls data (e :: es) = applyNulls (setFieldNull data e) es := rfl
    rw [step, ih (setFieldNull data e)]
    by_cases hke : k ∈ es
    · simp [hke, List.mem_cons]
    · rw [getField_setFieldNull data e k hk]
      by_cases heq : e = k
      · subst heq
        simp
      · have hne : ¬(k = e) := fun h => heq h.symm
        simp [heq, hne, hke, List.mem_cons]

/-- C5: when construction fails, `_coerce` returns the retry outcome on
the record with exactly the reported offending fields nulled out
(`emptyResult` when the retry fails too), and the nulling touches
exactly the reported fields: every reported key is bound to `None`,
every other known key keeps its original binding. -/
theorem c5_degrade_offending_fields_and_retry (data : RawRecord) (errs : List String)
    (h : model_validate data = .error errs) :
    _coerce data =
      (match model_validate (applyNulls data errs) with
       | .ok r => r
       | .error _ => emptyResult) ∧
    ∀ k, k ∈ fiveKeysList →
      getField (applyNulls data errs) k =
        if k ∈ errs then some Value.null else getField data k := by
  constructor
  · unfold _coerce
    rw [h]
  · intro k hk
    exact getField_applyNulls errs data k hk

/-- Witness for C5 at a record whose reference slot holds a number:
first construction fails exactly on `invoiceReference`. -/
theorem c5_witness :
    model_validate c5data = Except.error ["invoiceReference"] ∧
    (_coerce c5data =
      (match model_validate (applyNulls c5data ["invoiceReference"]) with
       | .ok r => r
       | .error _ => emptyResult) ∧
     ∀ k, k ∈ fiveKeysList →
       getField (applyNulls c5data ["invoiceReference"]) k =
         if k ∈ ["invoiceReference"] then some Value.null else getField c5data k) :=
  ⟨rfl, c5_degrade_offending_fields_and_retry c5data ["invoiceReference"] rfl⟩

theorem dedup_three_length_iff (a b c : Option String) :
    (([a, b, c] : List (Option String)).dedup.length > 1) ↔ ¬(a = b ∧ b = c) := by
  by_cases hab : a = b <;> by_cases hbc : b = c <;> by_cases hac : a = c <;>
    simp_all [List.dedup_cons_of_mem, List.dedup_cons_of_not_mem, List.mem_cons,
      List.mem_singleton]

/-- C6: with all three amounts present, a currency mismatch yields the
currency warning and skips the arithmetic check entirely; with one
shared currency, the totals-inconsistency warning is emitted exactly
when the total is nonzero and the relative error exceeds one percent —
in particular a zero total emits nothing. -/
theorem c6_totals_currency_checks (r : InvoiceResult) (n v t : MonetaryAmount)
    (hn : r.netAmount = some n) (hv : r.vatAmount = some v) (ht : r.totalAmount = some t) :
    (¬(n.currency = v.currency ∧ v.currency = t.currency) →
      _check_totals r = [Warning.currencyMismatch n.currency v.currency t.currency]) ∧
    ((n.currency = v.currency ∧ v.currency = t.currency) →
      (Warning.totalsInconsistency n.amount v.amount t.amount ∈ _check_totals r ↔
        t.amount ≠ 0 ∧ |n.amount + v.amount - t.amount| / |t.amount| > (1 : ℚ) / 100) ∧
      (t.amount = 0 → _check_totals r = [])) := by
  have hct : _check_totals r =
      (if ([n.currency, v.currency, t.currency] : List (Option String)).dedup.length > 1 then
        [Warning.currencyMismatch n.currency v.currency t.currency]
      else if t.amount ≠ 0 ∧ |n.amount + v.amount - t.amount| / |t.amount| > (1 : ℚ) / 100 then
        [Warning.totalsInconsistency n.amount v.amount t.amount]
      else []) := by
    unfold _check_totals
    rw [hn, hv, ht]
  rw [hct]
  constructor
  · intro hne
    rw [if_pos ((dedup_three_length_iff _ _ _).mpr hne)]
  · intro heq
    rw [if_neg (fun hgt => ((dedup_three_length_iff _ _ _).mp hgt) heq)]
    constructor
    · split_ifs with hcond
      · exact iff_of_true (List.mem_singleton_self _) hcond
      · exact iff_of_false (List.not_mem_nil _) hcond
    · intro ht0
      rw [if_neg]
      intro hand
      exact hand.1 ht0

/-- Witness for C6 at the spec's example `net=100 NOK, vat=25 NOK,
total=200 NOK`: the totals-inconsistency warning is emitted. -/
theorem c6_witness :
    Warning.totalsInconsistency 100 25 200 ∈ _check_totals c6result :=
  (((c6_totals_currency_checks c6result
      { amount := 100, currency := some "NOK" }
      { amount := 25, currency := some "NOK" }
      { amount := 200, currency := some "NOK" } rfl rfl rfl).2 ⟨rfl, rfl⟩).1).mpr
    ⟨by norm_num, by rw [show |(100 : ℚ) + 25 - 200| = 75 by norm_num [abs]]; norm_num [abs]⟩

set_option linter.unnecessarySeqFocus false in
/-- C8: a date string in strict `YYYY-MM-DD` form passes through date
normalization verbatim (in particular the month-name substitution is
never applied: the record is returned unchanged before that step),
and construction coerces it to exactly the denoted calendar date. -/
theorem c8_strict_iso_date_preserved (dateutilParse : String → Option PyDate)
    (data : RawRecord) (s : String) (d : PyDate)
    (hs : data.invoiceDate = some (Value.str s))
    (hd : date_fromisoformat s = some d) :
    _normalize_date dateutilParse data = data ∧
    coerceDate (some (Value.str s)) = .ok (some d) ∧
    ∀ res, model_validate (_normalize_date dateutilParse data) = .ok res →
      res.invoiceDate = some d := by
  have hnorm : _normalize_date dateutilParse data = data := by
    unfold _normalize_date
    rw [hs]
    simp [hd]
  have hcd : coerceDate (some (Value.str s)) = .ok (some d) := by
    simp [coerceDate, hd]
  refine ⟨hnorm, hcd, ?_⟩
  intro res hres
  rw [hnorm] at hres
  unfold model_validate at hres
  rw [hs, hcd] at hres
  cases h1 : coerceRef data.invoiceReference <;> rw [h1] at hres <;>
    cases h2 : coerceAmountField data.netAmount <;> rw [h2] at hres <;>
      cases h3 : coerceAmountField data.vatAmount <;> rw [h3] at hres <;>
        cases h4 : coerceAmountField data.totalAmount <;> rw [h4] at hres <;>
          cases hres <;> rfl

/-- Witness for C8 at the record carrying the string `2024-01-15`. -/
theorem c8_witness :
    _normalize_date (fun _ => none) c8data = c8data ∧
    coerceDate (some (Value.str "2024-01-15")) =
      .ok (some { year := 2024, month := 1, day := 15 }) ∧
    ∀ res, model_validate (_normalize_date (fun _ => none) c8data) = .ok res →
      res.invoiceDate = some { year := 2024, month := 1, day := 15 } :=
  c8_strict_iso_date_preserved (fun _ => none) c8data "2024-01-15"
    { year := 2024, month := 1, day := 15 } rfl rfl

theorem coerceDate_dumpDate (x : Option PyDate) :
    coerceDate (some (dumpDate x)) = .ok x := by
  cases x <;> rfl

theorem coerceRef_dumpStrOpt (x : Option String) :
    coerceRef (some (dumpStrOpt x)) = .ok x := by
  cases x <;> rfl

theorem coerceAmountField_dumpAmount (x : Option MonetaryAmount) :
    coerceAmountField (some (dumpAmount x)) = .ok x := by
  cases x with
  | none => rfl
  | some m =>
    cases m with
    | mk a cur => cases cur <;> rfl

theorem normalize_toRaw (dateutilParse : String → Option PyDate) (r : InvoiceResult) :
    _normalize_date dateutilParse (toRaw r) = toRaw r := by
  cases r with
  | mk d rf na va ta => cases d <;> rfl

theorem model_validate_toRaw (r : InvoiceResult) : model_validate (toRaw r) = .ok r := by
  cases r with
  | mk d rf na va ta =>
    simp [model_validate, toRaw, coerceDate_dumpDate, coerceRef_dumpStrOpt,
      coerceAmountField_dumpAmount]

theorem validate_toRaw_fst (dateutilParse : String → Option PyDate) (r : InvoiceResult) :
    (validate dateutilParse (toRaw r)).1 = r := by
  show _coerce (_normalize_date dateutilParse (toRaw r)) = r
  rw [normalize_toRaw]
  unfold _coerce
  rw [model_validate_toRaw]

/-- C9: validation is idempotent — converting the result of `validate`
back to raw-record form and validating again returns an identical
result. -/
theorem c9_validate_idempotent (dateutilParse : String → Option PyDate) (raw : RawRecord) :
    (validate dateutilParse (toRaw (validate dateutilParse raw).1)).1 =
      (validate dateutilParse raw).1 :=
  validate_toRaw_fst dateutilParse ((validate dateutilParse raw).1)

theorem findIdx_eq_findOpenBrace (cs : List Char) (i : Nat) :
    cs.findIdx? (fun c => c == '{') i = (findOpenBrace cs).map (i + ·) := by
  induction cs generalizing i with
  | nil => simp [findOpenBrace, List.findIdx?_nil]
  | cons c cs ih =>
    rw [List.findIdx?_cons]
    by_cases h : c = '{'
    · simp [findOpenBrace, h]
    · simp only [findOpenBrace, h, beq_iff_eq, if_false, if_neg h]
      rw [ih, option_map_shift]

theorem findIdx_eq_findOpenBrace_zero (cs : List Char) :
    cs.findIdx? (fun c => c == '{') = findOpenBrace cs := by
  rw [findIdx_eq_findOpenBrace]
  cases findOpenBrace cs <;> simp

set_option linter.unusedTactic false in
theorem scanGo_eq_firstClose (cs : List Char) (st : ScanState) (i : Nat) :
    scanGo cs st i = (firstClose cs st).map (i + ·) := by
  induction cs generalizing st i with
  | nil => simp [scanGo, firstClose]
  | cons c cs ih =>
    simp only [scanGo, firstClose, specStep]
    split_ifs <;>
      first
        | rw [ih, option_map_shift]
        | (exfalso
           rcases ‹closesHere st c› with ⟨he, hi, hc, hd⟩
           simp_all <;> omega)
        | (simp <;> omega)
        | (exfalso
           apply ‹¬closesHere st c›
           exact ⟨by simp_all, by simp_all, by assumption, by omega⟩)

theorem scanStateAt_succ_cons (st : ScanState) (c : Char) (cs : List Char) (k : Nat) :
    scanStateAt st (c :: cs) (k + 1) = scanStateAt (specStep st c) cs k := by
  simp [scanStateAt, List.take_succ_cons]

theorem closesAt_succ (st : ScanState) (c : Char) (cs : List Char) (k : Nat) :
    closesAt st (c :: cs) (k + 1) ↔ closesAt (specStep st c) cs k := by
  unfold closesAt
  rw [List.get?_cons_succ, scanStateAt_succ_cons]

theorem firstClose_eq_find (cs : List Char) (st : ScanState) :
    firstClose cs st =
      (List.range cs.length).find? (fun k => decide (closesAt st cs k)) := by
  induction cs generalizing st with
  | nil => simp [firstClose]
  | cons c cs ih =>
    rw [List.length_cons, List.range_succ_eq_map]
    by_cases h : closesHere st c
    · rw [List.find?_cons_of_pos]
      · simp [firstClose, h]
      · simpa [closesAt, scanStateAt] using h
    · rw [List.find?_cons_of_neg _ (by simpa [closesAt, scanStateAt] using h)]
      rw [List.find?_map]
      have hp : ((fun k => decide (closesAt st (c :: cs) k)) ∘ Nat.succ) =
          fun k => decide (closesAt (specStep st c) cs k) := by
        funext k
        simp only [Function.comp_apply]
        exact decide_eq_decide.mpr (closesAt_succ st c cs k)
      rw [hp, ← ih (specStep st c)]
      simp only [firstClose, h, if_false, if_neg h]

/-- C3: the balanced-delimiter scanner agrees, on every input string,
with the spec-level description: the substring from the first opening
brace to the first position where the quote- and escape-aware nesting
depth returns to zero, and no candidate when there is no opening brace
or the depth never returns to zero. -/
theorem c3_scanner_meets_spec (raw : String) :
    _extract_json_object raw = scannerSpec raw := by
  unfold _extract_json_object extractJsonObjectList scannerSpec
  rw [findIdx_eq_findOpenBrace_zero]
  cases h : findOpenBrace raw.toList with
  | none => rfl
  | some start =>
    dsimp only
    rw [scanGo_eq_firstClose, firstClose_eq_find]
    cases hf : (List.range (raw.toList.drop start).length).find?
        (fun k => decide (closesAt { depth := 0, inString := false, escapeNext := false }
          (raw.toList.drop start) k)) with
    | none => rfl
    | some k =>
      simp only [Option.map_some']
      have hslice : (raw.toList.take (start + k + 1)).drop start =
          (raw.toList.drop start).take (k + 1) := by
        rw [List.drop_take]
        congr 1
        omega
      rw [hslice]

end InvoiceParser
